import Mathlib

/- Verification of the extraction core of the learn_anything_app repository:
the ISO-8601 media-duration parser (`YouTubeIntegration._parse_duration`,
`YouTubeIntegration._duration_to_seconds` in youtube_integration.py) and the
HTML main-content extractor (`ContentExtractor._extract_html_content` in
content_extraction.py).

The Python code is shallowly embedded as total Lean functions:

  * Python's `re.match(r'PT(?:(\d+)H)?(?:(\d+)M)?(?:(\d+)S)?', s)` anchors at
    the start of the string only.  Since every group is optional, the match
    succeeds exactly on strings beginning with "PT".  Each optional group
    `(?:(\d+)X)?` with a greedy `\d+` followed by a non-digit designator
    matches exactly when the maximal run of digits at the current position is
    nonempty and is immediately followed by the designator letter; greedy
    backtracking cannot produce any other parse because shortening the digit
    run leaves a digit, never the designator, as the next character.  This is
    embedded by `matchGroup` / `pyMatchDuration`.
  * Python string formatting `f"{h}:{m:02d}:{s:02d}"` is embedded with a
    decimal rendering function `natToDec` and the width-2 zero pad `pad2`.
  * HTML documents are modelled at the level of the parsed DOM that
    BeautifulSoup hands to the extraction code: a forest of element and text
    nodes (`Node` / `NodeList`), an element carrying its tag name and its raw
    class attribute.  BeautifulSoup specifics used by the code are embedded
    faithfully: `soup(["script","style"]) ... decompose()` removes every
    script/style element (`removeSSL`); `find` returns the first element in
    document order satisfying the query (`findFirstL`); a found tag is always
    truthy, so the `or` chain takes the first non-None result;
    `get_text(separator='\n', strip=True)` strips each descendant string,
    drops the empty ones and joins with a newline (`getTextNlStrip`);
    `get_text()` concatenates the raw strings (`getTextPlain`); a regex class
    query matches a div whose class attribute contains one of the (case
    sensitive) substrings content / article / main (`classRegexMatches`);
    `re.sub(r'\n\s*\n', '\n\n', content)` replaces each newline followed
    through contiguous whitespace up to a last reachable newline by exactly
    two newlines (`pySubNl`); `str.strip` (`pyStrip`) and `len(s.split())`
    (`wordCount`) follow Python semantics on whitespace.

All functions are structurally recursive, so every concrete instance can be
evaluated by the kernel. -/

/- ISO-8601 duration parser (youtube_integration.py lines 139-162). -/

/-- Decimal digit character for `d % 10` (code point 48 + d % 10). -/
def digitChar (d : Nat) : Char := Char.ofNat (48 + d % 10)

/-- Core of decimal rendering: fuel-indexed, most significant digit first,
accumulating on the right. With fuel > number of digits it computes the
usual decimal representation, as Python's `str(int)` does. -/
def natToDecCore : Nat → Nat → List Char → List Char
  | 0, _, acc => acc
  | fuel + 1, n, acc =>
    if n < 10 then digitChar n :: acc
    else natToDecCore fuel (n / 10) (digitChar (n % 10) :: acc)

/-- Decimal representation of a natural number, as Python `str(int)`. -/
def natToDec (n : Nat) : String := String.mk (natToDecCore (n + 1) n [])

/-- Python format `{n:02d}`: zero-pad to width two. -/
def pad2 (n : Nat) : String := if n < 10 then "0" ++ natToDec n else natToDec n

/-- ASCII decimal digit test, Python regex `\d` on the inputs at hand. -/
def isDigitCh (c : Char) : Bool := 48 ≤ c.toNat && c.toNat ≤ 57

/-- Numeric value of a digit run, as Python `int` on a digit string. -/
def digitsToNat (ds : List Char) : Nat :=
  ds.foldl (fun a c => 10 * a + (c.toNat - 48)) 0

/-- One optional regex group `(?:(\d+)X)?` with designator letter `X`:
succeeds exactly when the maximal digit run at the current position is
nonempty and immediately followed by the designator; on success consumes
run and designator, otherwise consumes nothing. -/
def matchGroup (letter : Char) (cs : List Char) : Option Nat × List Char :=
  match cs.takeWhile isDigitCh, cs.dropWhile isDigitCh with
  | [], _ => (none, cs)
  | _, [] => (none, cs)
  | ds, c :: rest => if c = letter then (some (digitsToNat ds), rest) else (none, cs)

/-- The three optional groups H, M, S applied in sequence, each absent group
defaulting to zero as `int(match.group(i) or 0)` does. -/
def parseHMS (cs : List Char) : Nat × Nat × Nat :=
  let hr := matchGroup 'H' cs
  let mr := matchGroup 'M' hr.2
  let sr := matchGroup 'S' mr.2
  (hr.1.getD 0, mr.1.getD 0, sr.1.getD 0)

/-- Embedding of `re.match(r'PT(?:(\d+)H)?(?:(\d+)M)?(?:(\d+)S)?', s)`:
`none` when the match fails (the string does not start with "PT"),
otherwise the three group values with absent groups defaulted to zero. -/
def pyMatchDuration (s : String) : Option (Nat × Nat × Nat) :=
  match s.data with
  | c1 :: c2 :: rest =>
    if c1 = 'P' then if c2 = 'T' then some (parseHMS rest) else none
    else none
  | [_] => none
  | [] => none

/-- Embedding of `YouTubeIntegration._parse_duration`: human-readable rendering, or the
sentinel "Unknown" when the regex does not match. -/
def parse_duration (s : String) : String :=
  match pyMatchDuration s with
  | some (h, m, sec) =>
    if h > 0 then natToDec h ++ ":" ++ pad2 m ++ ":" ++ pad2 sec
    else natToDec m ++ ":" ++ pad2 sec
  | none => "Unknown"

/-- Embedding of `YouTubeIntegration._duration_to_seconds`: total seconds, or 0 when the
regex does not match. -/
def duration_to_seconds (s : String) : Nat :=
  match pyMatchDuration s with
  | some (h, m, sec) => h * 3600 + m * 60 + sec
  | none => 0

/-- The composition performed by `YouTubeIntegration._get_video_details`
(youtube_integration.py lines 121-127): the ISO string is first turned into
a human-readable string by `_parse_duration`, and `duration_seconds` is then
computed by applying `_duration_to_seconds` to that human-readable string. -/
def videoDetailDurationSeconds (iso : String) : Nat :=
  duration_to_seconds (parse_duration iso)

/- DOM model and HTML content extraction (content_extraction.py lines
121-173).  A document is the forest of top-level nodes that BeautifulSoup
produces; an element node carries its (lowercased) tag name, its raw class
attribute when present, and its children. -/

mutual
inductive Node where
  | text : String → Node
  | elem : String → Option String → NodeList → Node
inductive NodeList where
  | nil : NodeList
  | cons : Node → NodeList → NodeList
end

/-- Build a NodeList from a Lean list of nodes. -/
def NL : List Node → NodeList
  | [] => .nil
  | n :: r => .cons n (NL r)

/-- A node survives `soup(["script", "style"]) ... decompose()` exactly when
it is not a script or style element. -/
def keepNode : Node → Bool
  | .text _ => true
  | .elem t _ _ => !(t == "script" || t == "style")

mutual
/-- Removal of script/style elements inside a kept node. -/
def removeSSN : Node → Node
  | .text s => .text s
  | .elem t c ch => .elem t c (removeSSL ch)
/-- Removal of every script and style element of a forest, recursively:
the embedding of the decompose loop of lines 135-136. -/
def removeSSL : NodeList → NodeList
  | .nil => .nil
  | .cons n tl =>
    if keepNode n then .cons (removeSSN n) (removeSSL tl) else removeSSL tl
end

mutual
/-- First element satisfying the query in a node's subtree, in document
order (the node itself before its children). -/
def findFirstN (p : String → Option String → Bool) : Node → Option Node
  | .text _ => none
  | .elem t c ch => if p t c then some (.elem t c ch) else findFirstL p ch
/-- Embedding of `soup.find(...)`: first element of the forest, in document order,
satisfying the query; `none` when there is no such element. -/
def findFirstL (p : String → Option String → Bool) : NodeList → Option Node
  | .nil => none
  | .cons n tl =>
    match findFirstN p n with
    | some r => some r
    | none => findFirstL p tl
end

mutual
/-- Whether some element of the node's subtree satisfies the query. -/
def occursN (p : String → Option String → Bool) : Node → Bool
  | .text _ => false
  | .elem t c ch => p t c || occursL p ch
/-- Whether some element of the forest satisfies the query. -/
def occursL (p : String → Option String → Bool) : NodeList → Bool
  | .nil => false
  | .cons n tl => occursN p n || occursL p tl
end

mutual
/-- The descendant text-node strings of a node, in document order: the
strings that `get_text` iterates over. -/
def stringsN : Node → List String
  | .text s => [s]
  | .elem _ _ ch => stringsL ch
/-- The text-node strings of a forest, in document order. -/
def stringsL : NodeList → List String
  | .nil => []
  | .cons n tl => stringsN n ++ stringsL tl
end

mutual
/-- The text-node strings of a node's subtree that do not lie inside any
script or style element. -/
def stringsOutN : Node → List String
  | .text s => [s]
  | .elem t _ ch => if t == "script" || t == "style" then [] else stringsOutL ch
/-- The text-node strings of a forest lying outside every script and style
element. -/
def stringsOutL : NodeList → List String
  | .nil => []
  | .cons n tl => stringsOutN n ++ stringsOutL tl
end

/-- Python whitespace test for `str.strip` / `str.split` and regex `\s`:
space, tab, newline, carriage return, vertical tab, form feed. -/
def isPyWs (c : Char) : Bool :=
  c.toNat == 32 || c.toNat == 9 || c.toNat == 10 ||
  c.toNat == 13 || c.toNat == 11 || c.toNat == 12

/-- Python `str.strip()`: remove leading and trailing whitespace. -/
def pyStrip (s : String) : String :=
  String.mk (((s.data.dropWhile isPyWs).reverse.dropWhile isPyWs).reverse)

/-- Token counter for Python `len(s.split())`: the number of maximal
nonempty runs of non-whitespace characters. The flag records whether the
previous character belonged to a word. -/
def tokCountAux : Bool → List Char → Nat
  | _, [] => 0
  | inWord, c :: cs =>
    if isPyWs c then tokCountAux false cs
    else (if inWord then 0 else 1) + tokCountAux true cs

/-- Python `len(s.split())`: number of whitespace-delimited tokens. -/
def wordCount (s : String) : Nat := tokCountAux false s.data

/-- Greedy tail of the regex `\n\s*\n` after its leading newline: follow
contiguous whitespace and, if a further newline is reachable, return the
remainder after the last reachable newline (the greedy `\s*` with
backtracking stops at the last newline of the whitespace run). -/
def subNlTail : List Char → Option (List Char)
  | [] => none
  | c :: cs =>
    if isPyWs c then
      match subNlTail cs with
      | some r => some r
      | none => if c.toNat == 10 then some cs else none
    else none

/-- Fuel-indexed scan of `re.sub(r'\n\s*\n', '\n\n', s)`: left-to-right,
non-overlapping; each match (a newline, whitespace, and a last reachable
newline) is replaced by exactly two newlines and scanning resumes after
the match.  Fuel larger than the list length never runs out. -/
def subNlCore : Nat → List Char → List Char
  | 0, cs => cs
  | _ + 1, [] => []
  | fuel + 1, c :: rest =>
    if c.toNat == 10 then
      match subNlTail rest with
      | some rest2 => Char.ofNat 10 :: Char.ofNat 10 :: subNlCore fuel rest2
      | none => c :: subNlCore fuel rest
    else c :: subNlCore fuel rest

/-- Embedding of `re.sub(r'\n\s*\n', '\n\n', s)` (content_extraction.py line 161). -/
def pySubNl (s : String) : String :=
  String.mk (subNlCore (s.data.length + 1) s.data)

/-- Whether `needle` is a prefix of the second list. -/
def hasPrefixL : List Char → List Char → Bool
  | [], _ => true
  | _ :: _, [] => false
  | a :: as, b :: bs => a == b && hasPrefixL as bs

/-- Whether `needle` occurs as a contiguous substring of the second list:
regex `search` with a literal alternative. -/
def hasInfixL (needle : List Char) : List Char → Bool
  | [] => hasPrefixL needle []
  | c :: cs => hasPrefixL needle (c :: cs) || hasInfixL needle cs

/-- The class query `class_=re.compile(r'content|article|main')` of line
149: the element has a class attribute and the (case-sensitive) regex
search finds one of the three literals in it.  BeautifulSoup runs the
search on each whitespace-separated class token and on the tokens joined
by single spaces; since none of the three literals contains whitespace,
that is equivalent to a substring search on the raw attribute value. -/
def classRegexMatches : Option String → Bool
  | none => false
  | some cls =>
    hasInfixL "content".data cls.data || hasInfixL "article".data cls.data ||
    hasInfixL "main".data cls.data

/-- Query for a fixed tag name, as `soup.find(name)`. -/
def isTag (name : String) (t : String) (_ : Option String) : Bool := t == name

/-- Embedding of `soup.find(name)`. -/
def findTag (name : String) (d : NodeList) : Option Node := findFirstL (isTag name) d

/-- Embedding of `soup.find('div', class_=re.compile(r'content|article|main'))`:
the query matches div elements only. -/
def findDivContent (d : NodeList) : Option Node :=
  findFirstL (fun t c => t == "div" && classRegexMatches c) d

/-- Embedding of `node.get_text()` with the default separator and no stripping:
concatenation of the descendant strings. -/
def getTextPlain (n : Node) : String := String.join (stringsN n)

/-- Embedding of `node.get_text(separator='\n', strip=True)`: strip each descendant
string, drop those that become empty, join with a newline. -/
def getTextNlStrip (n : Node) : String :=
  String.intercalate "\n" (((stringsN n).map pyStrip).filter (fun s => s != ""))

/-- The result record of `_extract_html_content`: the "type" field is the
constant "article", `content` is the cleaned body text, and the metadata
carries the source url, the title and the derived word count. -/
structure ExtractResult where
  rtype : String
  content : String
  title : String
  word_count : Nat
  source : String
deriving DecidableEq

/-- The extraction pipeline applied to the script/style-free soup
(content_extraction.py lines 138-173): title from the first title element
(fallback "Untitled"), main content node from the priority chain
main / article / matching-class div / body, text with newline separators,
then the newline cleanup, final strip and word count. -/
def extractClean (soup : NodeList) (url : String) : ExtractResult :=
  let title_text :=
    match findTag "title" soup with
    | some t => pyStrip (getTextPlain t)
    | none => "Untitled"
  let main_content :=
    match findTag "main" soup with
    | some m => some m
    | none =>
      match findTag "article" soup with
      | some a => some a
      | none => findDivContent soup
  let content :=
    match main_content with
    | some n => getTextNlStrip n
    | none =>
      match findTag "body" soup with
      | some b => getTextNlStrip b
      | none => ""
  let content := pyStrip (pySubNl content)
  { rtype := "article", content := content, title := title_text,
    word_count := wordCount content, source := url }

/-- Embedding of `ContentExtractor._extract_html_content`: remove every script and style
element first, then run the extraction pipeline on the cleaned soup. -/
def extract_html_content (doc : NodeList) (url : String) : ExtractResult :=
  extractClean (removeSSL doc) url

/- Definitions written from the specification's words, for comparison with
the source embedding. -/

/-- Modelled from the spec: "seconds zero-padded to two digits" — pad the
decimal rendering with leading zeros up to width two. -/
def specPad2 (n : Nat) : String :=
  if (natToDec n).length < 2 then "0" ++ natToDec n else natToDec n

/-- Modelled from the spec: "if hours > 0, render H:MM:SS; otherwise render
M:SS (minutes unpadded, seconds zero-padded to two digits)". -/
def specHuman (h m s : Nat) : String :=
  if h > 0 then natToDec h ++ ":" ++ specPad2 m ++ ":" ++ specPad2 s
  else natToDec m ++ ":" ++ specPad2 s

/-- Case-insensitive variant of the class match, as claimed by the spec:
the class attribute contains one of "content", "article", "main" after
lowercasing both sides. -/
def classMatchesCI : Option String → Bool
  | none => false
  | some cls =>
    hasInfixL "content".data (cls.data.map Char.toLower) ||
    hasInfixL "article".data (cls.data.map Char.toLower) ||
    hasInfixL "main".data (cls.data.map Char.toLower)

/-- Modelled from the spec's selection rule as claimed: first main element,
else first article element, else the first element of ANY tag whose class
attribute matches case-insensitively, with the body fallback handled
downstream. -/
def claimMainContent (soup : NodeList) : Option Node :=
  (findTag "main" soup).orElse fun _ =>
    (findTag "article" soup).orElse fun _ =>
      findFirstL (fun _ c => classMatchesCI c) soup

/-- The extraction pipeline with the claimed (any-tag, case-insensitive)
selection rule in place of the source's, everything else unchanged. -/
def claimExtract (doc : NodeList) (url : String) : ExtractResult :=
  let soup := removeSSL doc
  let title_text :=
    match findTag "title" soup with
    | some t => pyStrip (getTextPlain t)
    | none => "Untitled"
  let content :=
    match claimMainContent soup with
    | some n => getTextNlStrip n
    | none =>
      match findTag "body" soup with
      | some b => getTextNlStrip b
      | none => ""
  let content := pyStrip (pySubNl content)
  { rtype := "article", content := content, title := title_text,
    word_count := wordCount content, source := url }

/-- The amended selection rule, stated independently of the source text:
first main element, else first article element, else the first div element
whose class attribute contains (case-sensitively) one of the substrings
content / article / main. -/
def amendedMainContent (soup : NodeList) : Option Node :=
  (findTag "main" soup).orElse fun _ =>
    (findTag "article" soup).orElse fun _ =>
      findFirstL (fun t c => t == "div" && classRegexMatches c) soup

/-- The extraction pipeline with the amended selection rule. -/
def amendedExtract (doc : NodeList) (url : String) : ExtractResult :=
  let soup := removeSSL doc
  let title_text :=
    match findTag "title" soup with
    | some t => pyStrip (getTextPlain t)
    | none => "Untitled"
  let content :=
    match amendedMainContent soup with
    | some n => getTextNlStrip n
    | none =>
      match findTag "body" soup with
      | some b => getTextNlStrip b
      | none => ""
  let content := pyStrip (pySubNl content)
  { rtype := "article", content := content, title := title_text,
    word_count := wordCount content, source := url }

/- Explicit state passing for the two classes.  `_parse_duration` and
`_duration_to_seconds` read no attribute of the YouTubeIntegration object
and assign none; `_extract_html_content` reads no attribute of the
ContentExtractor object and assigns none.  The embeddings therefore
thread the object state unchanged and ignore it. -/

/-- The mutable state of a YouTubeIntegration object (constructor at
youtube_integration.py lines 17-25). -/
structure YouTubeIntegrationState where
  api_key : Option String
  base_url : String

/-- The mutable state of a ContentExtractor object: the identity of the
httpx session it owns (content_extraction.py line 23). -/
structure ContentExtractorState where
  session : Nat

/-- Method form of `_parse_duration`: output plus post-state. -/
def parse_duration_method (st : YouTubeIntegrationState) (s : String) :
    String × YouTubeIntegrationState := (parse_duration s, st)

/-- Method form of `_duration_to_seconds`: output plus post-state. -/
def duration_to_seconds_method (st : YouTubeIntegrationState) (s : String) :
    Nat × YouTubeIntegrationState := (duration_to_seconds s, st)

/-- Method form of `_extract_html_content`: output plus post-state. -/
def extract_html_content_method (st : ContentExtractorState) (doc : NodeList)
    (url : String) : ExtractResult × ContentExtractorState :=
  (extract_html_content doc url, st)

/- Concrete documents used as test inputs. -/

/-- The DOM of the spec's example
"<html><head><title>T</title></head><body><main>Hello   world</main></body></html>"
(well-formed markup with no whitespace between tags, so the parse is the
evident one). -/
def exampleDoc : NodeList :=
  NL [.elem "html" none (NL
    [.elem "head" none (NL [.elem "title" none (NL [.text "T"])]),
     .elem "body" none (NL [.elem "main" none (NL [.text "Hello   world"])])])]

/-- The DOM of
"<html><body><section class=\x22content\x22>X</section>Y</body></html>":
no main, article, body-less fallback or div, but a section element whose
class attribute contains "content". -/
def sectionDoc : NodeList :=
  NL [.elem "html" none (NL
    [.elem "body" none (NL
      [.elem "section" (some "content") (NL [.text "X"]), .text "Y"])])]

/-- The DOM of "<html><head><title>T</title></head></html>": a document
with no main, article or body element and no class attributes at all. -/
def bareDoc : NodeList :=
  NL [.elem "html" none (NL
    [.elem "head" none (NL [.elem "title" none (NL [.text "T"])])])]

/- Helper lemmas. -/

/-- Appending strings appends their character data. -/
theorem strData_append (a b : String) : (a ++ b).data = a.data ++ b.data := rfl

/-- The decimal core with positive fuel prepends a nonempty block of digit
characters to the accumulator. -/
theorem natToDecCore_spec (fuel n : Nat) (acc : List Char) :
    ∃ l, l ≠ [] ∧ natToDecCore (fuel + 1) n acc = l ++ acc ∧
      ∀ c ∈ l, ∃ d, c = digitChar d := by
  induction fuel generalizing n acc with
  | zero =>
    by_cases h : n < 10
    · exact ⟨[digitChar n], by simp, by simp [natToDecCore, h], by
        intro c hc; simp at hc; exact ⟨n, hc⟩⟩
    · exact ⟨[digitChar (n % 10)], by simp, by simp [natToDecCore, h], by
        intro c hc; simp at hc; exact ⟨n % 10, hc⟩⟩
  | succ fuel ih =>
    by_cases h : n < 10
    · exact ⟨[digitChar n], by simp, by
        rw [show natToDecCore (fuel + 1 + 1) n acc
            = if n < 10 then digitChar n :: acc
              else natToDecCore (fuel + 1) (n / 10) (digitChar (n % 10) :: acc) from rfl,
          if_pos h]; rfl, by
        intro c hc; simp at hc; exact ⟨n, hc⟩⟩
    · obtain ⟨l, hne, heq, hmem⟩ := ih (n / 10) (digitChar (n % 10) :: acc)
      refine ⟨l ++ [digitChar (n % 10)], by simp, ?_, ?_⟩
      · rw [show natToDecCore (fuel + 1 + 1) n acc
            = if n < 10 then digitChar n :: acc
              else natToDecCore (fuel + 1) (n / 10) (digitChar (n % 10) :: acc) from rfl,
          if_neg h, heq, List.append_assoc, List.singleton_append]
      · intro c hc
        rcases List.mem_append.1 hc with h1 | h1
        · exact hmem c h1
        · simp at h1; exact ⟨n % 10, h1⟩

/-- No digit character is the letter P. -/
theorem digitChar_ne_P (d : Nat) : digitChar d ≠ 'P' := by
  unfold digitChar
  have h : d % 10 < 10 := Nat.mod_lt _ (by omega)
  set e := d % 10 with he
  interval_cases e <;> decide

/-- The decimal rendering of a natural number is nonempty and starts with a
digit character, never with the letter P. -/
theorem natToDec_head (n : Nat) : ∃ c t, (natToDec n).data = c :: t ∧ c ≠ 'P' := by
  obtain ⟨l, hne, heq, hmem⟩ := natToDecCore_spec n n []
  cases l with
  | nil => exact absurd rfl hne
  | cons c t =>
    refine ⟨c, t, ?_, ?_⟩
    · show natToDecCore (n + 1) n [] = c :: t
      rw [heq]; simp
    · obtain ⟨d, hd⟩ := hmem c (by simp)
      rw [hd]; exact digitChar_ne_P d

/-- The duration regex fails on every string whose first character is not
the letter P. -/
theorem pyMatchDuration_none_of_head (s : String) (c : Char) (t : List Char)
    (hd : s.data = c :: t) (hc : c ≠ 'P') : pyMatchDuration s = none := by
  unfold pyMatchDuration
  rw [hd]
  cases t with
  | nil => rfl
  | cons c2 r => simp [hc]

/-- Every output of the human-readable renderer fails the duration regex:
"Unknown" starts with U and the clock strings start with a digit. -/
theorem pyMatchDuration_parse_duration (s : String) :
    pyMatchDuration (parse_duration s) = none := by
  cases hm : pyMatchDuration s with
  | none => simp only [parse_duration, hm]; decide
  | some g =>
    obtain ⟨h, m, sec⟩ := g
    simp only [parse_duration, hm]
    by_cases hh : h > 0
    · obtain ⟨c, t, hct, hcp⟩ := natToDec_head h
      refine pyMatchDuration_none_of_head _ c
        (t ++ (":" ++ pad2 m ++ ":" ++ pad2 sec).data) ?_ hcp
      simp only [hh, if_true]
      show ((((natToDec h ++ ":") ++ pad2 m) ++ ":") ++ pad2 sec).data = _
      simp only [strData_append, hct, List.cons_append, List.append_assoc]
    · obtain ⟨c, t, hct, hcp⟩ := natToDec_head m
      refine pyMatchDuration_none_of_head _ c
        (t ++ (":" ++ pad2 sec).data) ?_ hcp
      simp only [hh, if_false]
      show ((natToDec m ++ ":") ++ pad2 sec).data = _
      simp only [strData_append, hct, List.cons_append, List.append_assoc]

/-- For a single-digit number the decimal rendering is that digit alone. -/
theorem natToDec_lt10 (n : Nat) (h : n < 10) :
    natToDec n = String.mk [digitChar n] := by
  simp [natToDec, natToDecCore, h]

/-- For a number of at least two digits the rendering has length at least
two. -/
theorem natToDec_length_ge2 (n : Nat) (h : 10 ≤ n) : 2 ≤ (natToDec n).length := by
  obtain ⟨m, rfl⟩ : ∃ m, n = m + 1 := ⟨n - 1, by omega⟩
  show 2 ≤ (natToDecCore (m + 1 + 1) (m + 1) []).length
  have hlt : ¬ m + 1 < 10 := by omega
  rw [show natToDecCore (m + 1 + 1) (m + 1) []
      = if m + 1 < 10 then digitChar (m + 1) :: []
        else natToDecCore (m + 1) ((m + 1) / 10) [digitChar ((m + 1) % 10)] from rfl,
    if_neg hlt]
  obtain ⟨l, hne, heq, _⟩ := natToDecCore_spec m ((m + 1) / 10) [digitChar ((m + 1) % 10)]
  rw [heq]
  have h1 : 1 ≤ l.length := List.length_pos.2 hne
  simp [List.length_append]
  omega

/-- The code's width-2 zero pad agrees with the spec's description of
zero-padding to two digits. -/
theorem pad2_eq_specPad2 (n : Nat) : pad2 n = specPad2 n := by
  by_cases h : n < 10
  · have hl : (natToDec n).length < 2 := by
      rw [natToDec_lt10 n h]
      show [digitChar n].length < 2
      simp
    simp [pad2, specPad2, h, hl]
  · have hl : ¬ (natToDec n).length < 2 := by
      have := natToDec_length_ge2 n (by omega)
      omega
    simp [pad2, specPad2, h, hl]

mutual
/-- Text strings of a kept node after script/style removal are exactly its
text strings outside script/style elements. -/
theorem stringsN_removeSSN (n : Node) (h : keepNode n = true) :
    stringsN (removeSSN n) = stringsOutN n := by
  cases n with
  | text s => rfl
  | elem t c ch =>
    simp only [keepNode, Bool.not_eq_true', Bool.not_eq_true] at h
    simp only [removeSSN, stringsN, stringsOutN, h, Bool.false_eq_true, if_false]
    exact stringsL_removeSSL ch
/-- Text strings of a forest after script/style removal are exactly the
text strings lying outside every script and style element. -/
theorem stringsL_removeSSL (d : NodeList) :
    stringsL (removeSSL d) = stringsOutL d := by
  cases d with
  | nil => rfl
  | cons n tl =>
    by_cases h : keepNode n = true
    · simp only [removeSSL, h, if_true, stringsL, stringsOutL,
        stringsN_removeSSN n h, stringsL_removeSSL tl]
    · cases n with
      | text s => simp [keepNode] at h
      | elem t c ch =>
        simp only [keepNode, Bool.not_eq_true, Bool.not_eq_true'] at h
        simp only [removeSSL, keepNode, h, Bool.not_true, Bool.false_eq_true, if_false]
        simp only [stringsL, stringsOutL, stringsOutN, h, if_true, List.nil_append]
        exact stringsL_removeSSL tl
end

mutual
/-- If no element of a node's subtree satisfies the query, the find on that
node returns nothing. -/
theorem findFirstN_none_of_occursN (p : String → Option String → Bool) (n : Node)
    (h : occursN p n = false) : findFirstN p n = none := by
  cases n with
  | text s => rfl
  | elem t c ch =>
    simp only [occursN, Bool.or_eq_false_iff] at h
    simp only [findFirstN, h.1, Bool.false_eq_true, if_false]
    exact findFirstL_none_of_occursL p ch h.2
/-- If no element of a forest satisfies the query, the find returns
nothing. -/
theorem findFirstL_none_of_occursL (p : String → Option String → Bool) (d : NodeList)
    (h : occursL p d = false) : findFirstL p d = none := by
  cases d with
  | nil => rfl
  | cons n tl =>
    simp only [occursL, Bool.or_eq_false_iff] at h
    simp only [findFirstL, findFirstN_none_of_occursN p n h.1]
    exact findFirstL_none_of_occursL p tl h.2
end

mutual
/-- An element query satisfied somewhere in a node after script/style
removal was satisfied somewhere in the node already. -/
theorem occursN_removeSSN (p : String → Option String → Bool) (n : Node)
    (h : occursN p (removeSSN n) = true) : occursN p n = true := by
  cases n with
  | text s => simp [removeSSN, occursN] at h
  | elem t c ch =>
    simp only [removeSSN, occursN, Bool.or_eq_true] at h
    rcases h with h | h
    · simp [occursN, h]
    · simp [occursN, occursL_removeSSL p ch h]
/-- An element query satisfied somewhere in a forest after script/style
removal was satisfied somewhere in the forest already. -/
theorem occursL_removeSSL (p : String → Option String → Bool) (d : NodeList)
    (h : occursL p (removeSSL d) = true) : occursL p d = true := by
  cases d with
  | nil => simp [removeSSL, occursL] at h
  | cons n tl =>
    by_cases hk : keepNode n = true
    · simp only [removeSSL, hk, if_true, occursL, Bool.or_eq_true] at h
      rcases h with h | h
      · simp [occursL, occursN_removeSSN p n h]
      · simp [occursL, occursL_removeSSL p tl h]
    · simp only [removeSSL, hk, Bool.false_eq_true, if_false] at h
      simp [occursL, occursL_removeSSL p tl h]
end

mutual
/-- Occurrence of element queries is monotone in the query, node form. -/
theorem occursN_mono (p q : String → Option String → Bool)
    (hpq : ∀ t c, p t c = true → q t c = true) (n : Node)
    (h : occursN p n = true) : occursN q n = true := by
  cases n with
  | text s => simp [occursN] at h
  | elem t c ch =>
    simp only [occursN, Bool.or_eq_true] at h
    rcases h with h | h
    · simp [occursN, hpq t c h]
    · simp [occursN, occursL_mono p q hpq ch h]
/-- Occurrence of element queries is monotone in the query, forest form. -/
theorem occursL_mono (p q : String → Option String → Bool)
    (hpq : ∀ t c, p t c = true → q t c = true) (d : NodeList)
    (h : occursL p d = true) : occursL q d = true := by
  cases d with
  | nil => simp [occursL] at h
  | cons n tl =>
    simp only [occursL, Bool.or_eq_true] at h
    rcases h with h | h
    · simp [occursL, occursN_mono p q hpq n h]
    · simp [occursL, occursL_mono p q hpq tl h]
end

/-- A prefix test survives mapping a function over both lists. -/
theorem hasPrefixL_map (f : Char → Char) (a b : List Char)
    (h : hasPrefixL a b = true) : hasPrefixL (a.map f) (b.map f) = true := by
  induction a generalizing b with
  | nil => rfl
  | cons x xs ih =>
    cases b with
    | nil => simp [hasPrefixL] at h
    | cons y ys =>
      simp only [hasPrefixL, Bool.and_eq_true, beq_iff_eq] at h
      simp only [List.map_cons, hasPrefixL, Bool.and_eq_true, beq_iff_eq]
      exact ⟨by rw [h.1], ih ys h.2⟩

/-- A substring test survives mapping a function over both lists. -/
theorem hasInfixL_map (f : Char → Char) (a b : List Char)
    (h : hasInfixL a b = true) : hasInfixL (a.map f) (b.map f) = true := by
  induction b with
  | nil =>
    simp only [hasInfixL] at h ⊢
    cases a with
    | nil => rfl
    | cons x xs => simp [hasPrefixL] at h
  | cons y ys ih =>
    simp only [hasInfixL, Bool.or_eq_true] at h
    rcases h with h | h
    · have := hasPrefixL_map f a (y :: ys) h
      simp only [List.map_cons] at this
      simp [hasInfixL, this]
    · simp [hasInfixL, ih h]

/-- The source's case-sensitive class match implies the spec's
case-insensitive one. -/
theorem classRegexMatches_implies_CI (c : Option String)
    (h : classRegexMatches c = true) : classMatchesCI c = true := by
  cases c with
  | none => simp [classRegexMatches] at h
  | some cls =>
    have key : ∀ nd : List Char, nd.map Char.toLower = nd →
        hasInfixL nd cls.data = true →
        hasInfixL nd (cls.data.map Char.toLower) = true := by
      intro nd hnd hi
      have h2 := hasInfixL_map Char.toLower nd cls.data hi
      rwa [hnd] at h2
    simp only [classRegexMatches, Bool.or_eq_true] at h
    simp only [classMatchesCI, Bool.or_eq_true]
    rcases h with (h | h) | h
    · exact Or.inl (Or.inl (key _ (by decide) h))
    · exact Or.inl (Or.inr (key _ (by decide) h))
    · exact Or.inr (key _ (by decide) h)

/- Claim theorems. -/

/-- C1: for every input string on which the duration regex does not match
(the empty string included), the parser returns the sentinel: human string
"Unknown" and total seconds 0.  Both embedded functions are total Lean
functions, so no input can raise. -/
theorem duration_sentinel_on_no_match (s : String)
    (h : pyMatchDuration s = none) :
    parse_duration s = "Unknown" ∧ duration_to_seconds s = 0 := by
  constructor
  · simp [parse_duration, h]
  · simp [duration_to_seconds, h]

/-- Witness for C1 at the empty string. -/
theorem duration_sentinel_on_no_match_witness :
    pyMatchDuration "" = none ∧
      (parse_duration "" = "Unknown" ∧ duration_to_seconds "" = 0) :=
  ⟨by decide, duration_sentinel_on_no_match "" (by decide)⟩

/-- C2: the spec's duration test vectors hold: "PT4M13S" gives 253 seconds
and "4:13"; "PT1H2M3S" gives 3723 seconds and "1:02:03"; "PT0S" gives 0
seconds and "0:00". -/
theorem duration_test_vectors :
    parse_duration "PT4M13S" = "4:13" ∧ duration_to_seconds "PT4M13S" = 253 ∧
    parse_duration "PT1H2M3S" = "1:02:03" ∧ duration_to_seconds "PT1H2M3S" = 3723 ∧
    parse_duration "PT0S" = "0:00" ∧ duration_to_seconds "PT0S" = 0 := by
  decide

/-- C3 counterexample: on the spec's HTML example the extractor does not
return body text "Hello world"; the internal whitespace run is preserved,
giving "Hello   world". -/
theorem html_example_body_text_counterexample :
    (extract_html_content exampleDoc "url").content ≠ "Hello world" ∧
    (extract_html_content exampleDoc "url").content = "Hello   world" := by
  decide

/-- C3 amended: on the spec's HTML example the extractor returns title "T",
body text "Hello   world" (internal whitespace preserved, not collapsed)
and word count 2. -/
theorem html_example_extraction :
    (extract_html_content exampleDoc "url").title = "T" ∧
    (extract_html_content exampleDoc "url").content = "Hello   world" ∧
    (extract_html_content exampleDoc "url").word_count = 2 := by
  decide

/-- C4 counterexample: on a document whose only class-matching element is a
section (not a div), the claimed selection rule (any tag, case-insensitive)
picks the section and yields "X", but the code ignores it, falls back to
the body element and yields "X\nY". -/
theorem main_selection_counterexample :
    (claimExtract sectionDoc "url").content = "X" ∧
    (extract_html_content sectionDoc "url").content = "X\nY" ∧
    claimExtract sectionDoc "url" ≠ extract_html_content sectionDoc "url" := by
  decide

/-- C4 amended: for every document the extractor's behaviour is that of the
priority chain: first main element, else first article element, else first
DIV element whose class attribute contains case-SENSITIVELY one of
"content", "article", "main", else the body element, else empty text. -/
theorem main_selection_amended (d : NodeList) (url : String) :
    extract_html_content d url = amendedExtract d url := by
  unfold extract_html_content extractClean amendedExtract amendedMainContent
  cases h1 : findTag "main" (removeSSL d) with
  | some m => simp [h1, Option.orElse]
  | none =>
    cases h2 : findTag "article" (removeSSL d) with
    | some a => simp [h1, h2, Option.orElse]
    | none => simp [h1, h2, Option.orElse, findDivContent]

/-- C5 counterexample: "PT90M" is accepted by the parser with minutes group
90, outside the claimed range 0-59 (the code performs no normalization);
its rendering is "90:00" and its total seconds 5400. -/
theorem duration_minutes_range_counterexample :
    pyMatchDuration "PT90M" = some (0, 90, 0) ∧ ¬ (90 ≤ 59) ∧
    parse_duration "PT90M" = "90:00" ∧ duration_to_seconds "PT90M" = 5400 := by
  decide

/-- C5 amended: for every accepted input the parsed hours, minutes and
seconds are the literal group values (no 0-59 normalization), and the
derived total is hours*3600 + minutes*60 + seconds. -/
theorem duration_total_seconds_formula (s : String) (h m sec : Nat)
    (hm : pyMatchDuration s = some (h, m, sec)) :
    duration_to_seconds s = h * 3600 + m * 60 + sec := by
  simp [duration_to_seconds, hm]

/-- Witness for the amended C5 at "PT4M13S". -/
theorem duration_total_seconds_formula_witness :
    pyMatchDuration "PT4M13S" = some (0, 4, 13) ∧
      duration_to_seconds "PT4M13S" = 0 * 3600 + 4 * 60 + 13 :=
  ⟨by decide, duration_total_seconds_formula "PT4M13S" 0 4 13 (by decide)⟩

/-- C6: script and style elements are removed before any text extraction:
the extractor runs the whole pipeline on the script/style-free soup, and
the text strings of that soup are exactly the document's text strings
lying outside every script and style element, so no script or style text
can reach the extracted body text. -/
theorem script_style_removed_before_extraction (d : NodeList) (url : String) :
    extract_html_content d url = extractClean (removeSSL d) url ∧
    stringsL (removeSSL d) = stringsOutL d :=
  ⟨rfl, stringsL_removeSSL d⟩

/-- C7: the human rendering is H:MM:SS (minutes and seconds zero-padded to
two digits) when hours > 0 and otherwise M:SS (minutes unpadded, seconds
zero-padded), and an all-zero duration renders as "0:00". -/
theorem duration_human_format :
    (∀ s h m sec, pyMatchDuration s = some (h, m, sec) →
      parse_duration s = specHuman h m sec) ∧
    parse_duration "PT0S" = "0:00" ∧ specHuman 0 0 0 = "0:00" := by
  refine ⟨?_, by decide, by decide⟩
  intro s h m sec hm
  simp only [parse_duration, hm, specHuman, pad2_eq_specPad2]

/-- Witness for C7 at "PT1H2M3S". -/
theorem duration_human_format_witness :
    pyMatchDuration "PT1H2M3S" = some (1, 2, 3) ∧
      parse_duration "PT1H2M3S" = specHuman 1 2 3 :=
  ⟨by decide, duration_human_format.1 "PT1H2M3S" 1 2 3 (by decide)⟩

/-- C8: on a document with no main, article or body element and no element
whose class attribute matches (even case-insensitively), extraction falls
through every branch and returns empty body text with word count 0; the
embedding is a total function, so nothing can raise. -/
theorem extract_empty_when_no_candidates (d : NodeList) (url : String)
    (hmain : occursL (fun t _ => t == "main") d = false)
    (hart : occursL (fun t _ => t == "article") d = false)
    (hbody : occursL (fun t _ => t == "body") d = false)
    (hcls : occursL (fun _ c => classMatchesCI c) d = false) :
    (extract_html_content d url).content = "" ∧
    (extract_html_content d url).word_count = 0 := by
  have transfer : ∀ p : String → Option String → Bool,
      occursL p d = false → occursL p (removeSSL d) = false := by
    intro p hp
    cases hb : occursL p (removeSSL d) with
    | false => rfl
    | true => rw [occursL_removeSSL p d hb] at hp; exact absurd hp (by decide)
  have hdiv : occursL (fun t c => t == "div" && classRegexMatches c) d = false := by
    cases hb : occursL (fun t c => t == "div" && classRegexMatches c) d with
    | false => rfl
    | true =>
      have h2 := occursL_mono _ (fun _ c => classMatchesCI c)
        (fun t c hp => classRegexMatches_implies_CI c (by
          simp only [Bool.and_eq_true] at hp
          exact hp.2)) d hb
      exact absurd h2 (by simp [hcls])
  have fmain : findTag "main" (removeSSL d) = none :=
    findFirstL_none_of_occursL _ _ (transfer _ hmain)
  have fart : findTag "article" (removeSSL d) = none :=
    findFirstL_none_of_occursL _ _ (transfer _ hart)
  have fbody : findTag "body" (removeSSL d) = none :=
    findFirstL_none_of_occursL _ _ (transfer _ hbody)
  have fdiv : findDivContent (removeSSL d) = none :=
    findFirstL_none_of_occursL _ _ (transfer _ hdiv)
  unfold extract_html_content extractClean
  simp only [fmain, fart, fbody, fdiv]
  constructor <;> rfl

/-- Witness for C8 at a document with only html, head and title. -/
theorem extract_empty_when_no_candidates_witness :
    occursL (fun t _ => t == "main") bareDoc = false ∧
    occursL (fun t _ => t == "article") bareDoc = false ∧
    occursL (fun t _ => t == "body") bareDoc = false ∧
    occursL (fun _ c => classMatchesCI c) bareDoc = false ∧
    ((extract_html_content bareDoc "url").content = "" ∧
      (extract_html_content bareDoc "url").word_count = 0) :=
  ⟨by decide, by decide, by decide, by decide,
    extract_empty_when_no_candidates bareDoc "url"
      (by decide) (by decide) (by decide) (by decide)⟩

/-- C9: both components are deterministic pure functions of their input:
as methods they neither read nor write the object state, so the output is
independent of the state and the state is returned unchanged. -/
theorem methods_pure_and_stateless :
    ∀ (st1 st2 : YouTubeIntegrationState) (es1 es2 : ContentExtractorState)
      (s url : String) (d : NodeList),
      (parse_duration_method st1 s).1 = (parse_duration_method st2 s).1 ∧
      (parse_duration_method st1 s).2 = st1 ∧
      (duration_to_seconds_method st1 s).1 = (duration_to_seconds_method st2 s).1 ∧
      (duration_to_seconds_method st1 s).2 = st1 ∧
      (extract_html_content_method es1 d url).1 = (extract_html_content_method es2 d url).1 ∧
      (extract_html_content_method es1 d url).2 = es1 :=
  fun _ _ _ _ _ _ _ => ⟨rfl, rfl, rfl, rfl, rfl, rfl⟩

/-- C10: composing the two duration entry points always yields 0: the
human-readable outputs ("Unknown" or clock strings starting with a digit)
never start with "PT", so the video-details pipeline, which feeds
`_parse_duration` output into `_duration_to_seconds`, computes
duration_seconds 0 for every input. -/
theorem video_detail_duration_always_zero (s : String) :
    duration_to_seconds (parse_duration s) = 0 ∧
    videoDetailDurationSeconds s = 0 := by
  have h := pyMatchDuration_parse_duration s
  constructor
  · simp [duration_to_seconds, h]
  · simp [videoDetailDurationSeconds, duration_to_seconds, h]
